import Mathlib

/-!
Verification of the schema-synchronization engine of a C++ ORM layer
(`storage_impl.h`): the column diff (`calculate_remove_add_columns`),
the decision procedure (`schema_status`), the data-copy statement
generator (`copy_table`) and the schema inspectors
(`table_exists`, `get_table_info`), shallowly embedded in Lean.
-/

namespace SqliteOrm

/-- Result enumeration `sync_schema_result` (from sync_schema_result.h, as used
by `schema_status`). -/
inductive SyncSchemaResult where
  | new_table_created
  | already_in_sync
  | old_columns_removed
  | new_columns_added
  | new_columns_added_and_old_columns_removed
  | dropped_and_recreated
deriving DecidableEq, Repr

/-- Column metadata record `table_info` with fields in constructor order
`(cid, name, type, notnull, dflt_value, pk)`, exactly as constructed in
`get_table_info` (storage_impl.h lines 113-120). `dflt_value` is the textual
default, the empty string standing for "no default" (a NULL default text is
mapped to the empty string by the row callback). -/
structure TableInfo where
  cid : Int
  name : String
  type : String
  notnull : Bool
  dflt_value : String
  pk : Int
deriving DecidableEq, Repr

/-- Column equality used by the diff (storage_impl.h lines 83-87): name,
notnull flag, presence of a non-empty default text (`length() > 0`), and
primary-key rank. The default value content and the declared type are not
compared. -/
def columnsAreEqual (dbColumnInfo storageColumnInfo : TableInfo) : Bool :=
  dbColumnInfo.name == storageColumnInfo.name &&
  dbColumnInfo.notnull == storageColumnInfo.notnull &&
  (decide (0 < dbColumnInfo.dflt_value.length) ==
    decide (0 < storageColumnInfo.dflt_value.length)) &&
  dbColumnInfo.pk == storageColumnInfo.pk

/-- Membership of a column name in a column list (comparison by the `name`
field, as done by the `std::find_if` on line 78). -/
def nameIn (nm : String) (l : List TableInfo) : Bool :=
  l.any (fun ti => ti.name == nm)

/-- State of the three in/out vectors of `calculate_remove_add_columns`
together with the returned `notEqual` flag. In the C++ code `columnsToAdd`
holds pointers into `storageTableInfo`; here we keep the column values. -/
structure CracState where
  notEqual : Bool
  columnsToAdd : List TableInfo
  storageTableInfo : List TableInfo
  dbTableInfo : List TableInfo
deriving DecidableEq, Repr

/-- The loop of `calculate_remove_add_columns` (storage_impl.h lines 70-99).
At index `i` into the storage list: search the db list for the first column
of the same name (`std::find_if`); if found and attribute-equal, erase the
found db column (`erase(it)`, modelled by `eraseP` on the same predicate) and
erase the storage column at `i` keeping `i` (the code decrements and the
`for` re-increments); if found but unequal, stop with `notEqual = true`;
if not found, record the storage column as to-add and advance `i`. -/
def cracLoop (columnsToAdd storageTableInfo dbTableInfo : List TableInfo) (i : Nat) :
    CracState :=
  if h : i < storageTableInfo.length then
    match dbTableInfo.find? (fun ti => ti.name == storageTableInfo[i].name) with
    | some dbColumnInfo =>
      if columnsAreEqual dbColumnInfo storageTableInfo[i] then
        cracLoop columnsToAdd (storageTableInfo.eraseIdx i)
          (dbTableInfo.eraseP (fun ti => ti.name == storageTableInfo[i].name)) i
      else
        ⟨true, columnsToAdd, storageTableInfo, dbTableInfo⟩
    | none =>
      cracLoop (columnsToAdd ++ [storageTableInfo[i]]) storageTableInfo dbTableInfo (i + 1)
  else
    ⟨false, columnsToAdd, storageTableInfo, dbTableInfo⟩
termination_by storageTableInfo.length - i
decreasing_by
  · simp only [List.length_eraseIdx, h, if_pos]
    omega
  · omega

/-- Entry point `calculate_remove_add_columns(columnsToAdd, storageTableInfo,
dbTableInfo)`: `columnsToAdd` starts empty, the loop starts at index 0. -/
def calculate_remove_add_columns (storageTableInfo dbTableInfo : List TableInfo) :
    CracState :=
  cracLoop [] storageTableInfo dbTableInfo 0

/-- Structural companion of `cracLoop`: the processed-and-kept storage
columns (those recorded as to-add, which the loop leaves in place) are
carried in `prefixKept`, and the still-unprocessed suffix is recursed on
structurally. Proved equal to `cracLoop` below. -/
def cracGo (columnsToAdd prefixKept storage db : List TableInfo) : CracState :=
  match storage with
  | [] => ⟨false, columnsToAdd, prefixKept, db⟩
  | c :: rest =>
    match db.find? (fun ti => ti.name == c.name) with
    | some d =>
      if columnsAreEqual d c then
        cracGo columnsToAdd prefixKept rest (db.eraseP (fun ti => ti.name == c.name))
      else
        ⟨true, columnsToAdd, prefixKept ++ c :: rest, db⟩
    | none =>
      cracGo (columnsToAdd ++ [c]) (prefixKept ++ [c]) rest db

/-- Fuel-indexed variant of `cracLoop`, one unit of fuel per loop test;
`none` means the fuel ran out before the loop finished. Used to state
termination of the loop as a theorem. -/
def cracLoopFuel (fuel : Nat) (columnsToAdd storageTableInfo dbTableInfo : List TableInfo)
    (i : Nat) : Option CracState :=
  match fuel with
  | 0 => none
  | fuel + 1 =>
    if h : i < storageTableInfo.length then
      match dbTableInfo.find? (fun ti => ti.name == storageTableInfo[i].name) with
      | some dbColumnInfo =>
        if columnsAreEqual dbColumnInfo storageTableInfo[i] then
          cracLoopFuel fuel columnsToAdd (storageTableInfo.eraseIdx i)
            (dbTableInfo.eraseP (fun ti => ti.name == storageTableInfo[i].name)) i
        else
          some ⟨true, columnsToAdd, storageTableInfo, dbTableInfo⟩
      | none =>
        cracLoopFuel fuel (columnsToAdd ++ [storageTableInfo[i]]) storageTableInfo
          dbTableInfo (i + 1)
    else
      some ⟨false, columnsToAdd, storageTableInfo, dbTableInfo⟩

/-- Storage kind of a `GENERATED ALWAYS AS` column
(`basic_generated_always::storage_type` from constraints.h, which is not under
src; modelled from its use on storage_impl.h line 403, where only `stored`
forces a rebuild). -/
inductive GeneratedStorageKind where
  | not_specified
  | virtual_kind
  | stored
deriving DecidableEq, Repr

/-- Modelled from the spec: a declared column descriptor (spec section 3,
ColumnDescriptor). `notnull` is derived from the mapped field's nullability
(`column_t::not_null`), `dflt_value` is the serialized default-constraint text
with the empty string meaning no default (`column_t::default_value` returning
null), `pk` is the primary-key rank with 0 meaning not part of the key, and
`generatedStorage` is the storage kind of a generated-always constraint if the
column carries one (`column_t::is_generated`). -/
structure Column where
  name : String
  type : String
  notnull : Bool
  dflt_value : String
  pk : Int
  generatedStorage : Option GeneratedStorageKind
deriving DecidableEq, Repr

/-- Modelled from the spec: a declared table definition (name plus ordered
declared column list) as consumed by `schema_status` through `this->table`. -/
structure SchemaTable where
  name : String
  columns : List Column
deriving DecidableEq, Repr

/-- Modelled from the spec: the declared-side `table_info` rows produced by
`table_t::get_table_info` (not under src); per the spec the declared
descriptor list mirrors the inspected shape field by field, with `cid` the
declaration index. -/
def tableInfoRows (i : Nat) : List Column → List TableInfo
  | [] => []
  | c :: rest =>
    ⟨Int.ofNat i, c.name, c.type, c.notnull, c.dflt_value, c.pk⟩ :: tableInfoRows (i + 1) rest

/-- Modelled from the spec: `this->table.get_table_info()` as called on
storage_impl.h line 367. -/
def SchemaTable.get_table_info (t : SchemaTable) : List TableInfo :=
  tableInfoRows 0 t.columns

/-- Lookup of the generated-storage kind of a declared column by name
(storage_impl.h lines 439-459): the first declared column with the given name
that carries a generated-always constraint provides the result; when the
build has no generated-column support (SQLITE_VERSION_NUMBER < 3031000) the
lookup always fails. -/
def find_column_generated_storage_type (supportsGeneratedColumns : Bool)
    (t : SchemaTable) (nm : String) : Option GeneratedStorageKind :=
  if supportsGeneratedColumns then
    t.columns.findSome? (fun column =>
      if column.name == nm then column.generatedStorage else none)
  else
    none

/-- Per-column escalation test of the add-column step (storage_impl.h lines
399-413): a column to add forces a rebuild when it has a generated-always
constraint with `stored` storage, or when it has no generated-always
constraint and is NOT NULL with an empty default text (`dflt_value.empty()`).
A column with a non-stored generated-always constraint never escalates
(VIRTUAL can be added in place). -/
def shouldEscalateForAddedColumn (supportsGeneratedColumns : Bool) (t : SchemaTable)
    (columnPointer : TableInfo) : Bool :=
  match find_column_generated_storage_type supportsGeneratedColumns t columnPointer.name with
  | some storageType => storageType == GeneratedStorageKind.stored
  | none => columnPointer.notnull && (columnPointer.dflt_value.length == 0)

/-- The decision procedure `schema_status(db, preserve)` (storage_impl.h lines
358-434). The two compile-time switches are passed as capability flags:
`supportsDropColumn` for `SQLITE_VERSION_NUMBER >= 3035000` (line 384) and
`supportsGeneratedColumns` for `SQLITE_VERSION_NUMBER >= 3031000` (line 442).
`tableExistsInDb` and `dbTableInfoInput` stand for the results of the
`table_exists` and `get_table_info` database queries (lines 363 and 370).
`resAndGotta` carries the pair of mutable locals `(res, gottaCreateTable)`
after the extra-db-columns block (lines 379-393); the loop over
`columnsToAdd` with `break` (lines 399-414) is the `List.any` below. -/
def schema_status (supportsDropColumn supportsGeneratedColumns : Bool)
    (t : SchemaTable) (tableExistsInDb : Bool) (dbTableInfoInput : List TableInfo)
    (preserve : Bool) : SyncSchemaResult :=
  let gottaCreateTable := !tableExistsInDb
  if gottaCreateTable then
    SyncSchemaResult.new_table_created
  else
    let storageTableInfo := t.get_table_info
    let st := calculate_remove_add_columns storageTableInfo dbTableInfoInput
    let columnsToAdd := st.columnsToAdd
    let dbTableInfo := st.dbTableInfo
    let resAndGotta :=
      if !st.notEqual then
        if 0 < dbTableInfo.length then
          if !preserve then
            if supportsDropColumn then
              (SyncSchemaResult.old_columns_removed, false)
            else
              (SyncSchemaResult.already_in_sync, true)
          else
            (SyncSchemaResult.old_columns_removed, false)
        else
          (SyncSchemaResult.already_in_sync, false)
      else
        (SyncSchemaResult.already_in_sync, true)
    let res := resAndGotta.1
    let gottaCreateTable := resAndGotta.2
    if gottaCreateTable then
      SyncSchemaResult.dropped_and_recreated
    else
      if columnsToAdd.length != 0 then
        if columnsToAdd.any (shouldEscalateForAddedColumn supportsGeneratedColumns t) then
          SyncSchemaResult.dropped_and_recreated
        else
          if res == SyncSchemaResult.old_columns_removed then
            SyncSchemaResult.new_columns_added_and_old_columns_removed
          else
            SyncSchemaResult.new_columns_added
      else
        if res != SyncSchemaResult.old_columns_removed then
          SyncSchemaResult.already_in_sync
        else
          res

/-- Apostrophe character, written by code point to keep SQL text literals
readable as plain Lean strings. -/
def squote : String := String.singleton (Char.ofNat 39)

/-- Comma-space separated column-name list as emitted by the INSERT half of
`copy_table` (storage_impl.h lines 339-345): every name is followed by a
space, and a comma is inserted before the space for all but the last name. -/
def insertColumnList : List String → String
  | [] => ""
  | [n] => n ++ " "
  | n :: rest => n ++ ", " ++ insertColumnList rest

/-- Comma-space separated column-name list as emitted by the SELECT half of
`copy_table` (storage_impl.h lines 348-353): names separated by a comma and a
space, with no trailing separator. -/
def selectColumnList : List String → String
  | [] => ""
  | [n] => n
  | n :: rest => n ++ ", " ++ selectColumnList rest

/-- Names of the table columns surviving the copy (storage_impl.h lines
326-336): the declared columns, in declared order, whose name is not found in
`columnsToIgnore`. -/
def copyTableColumnNames (t : SchemaTable) (columnsToIgnore : List TableInfo) :
    List String :=
  t.columns.foldl
    (fun columnNames c =>
      if (columnsToIgnore.find? (fun p => c.name == p.name)).isSome then
        columnNames
      else
        columnNames ++ [c.name])
    []

/-- The SQL text generated by `copy_table` (storage_impl.h lines 322-356):
INSERT INTO name (columns) SELECT columns FROM the original table, the
original table name being quoted. -/
def copy_table_sql (t : SchemaTable) (nm : String) (columnsToIgnore : List TableInfo) :
    String :=
  let columnNames := copyTableColumnNames t columnsToIgnore
  "INSERT INTO " ++ nm ++ " (" ++ insertColumnList columnNames ++ ") " ++
    "SELECT " ++ selectColumnList columnNames ++ " FROM " ++ squote ++ t.name ++ squote

/-- Outcome of one `sqlite3_exec` call on the external database engine: either
the rows handed to the callback (each row a list of possibly-NULL C strings),
or a failure carrying the engine error code (`sqlite3_errcode`) and message
(`sqlite3_errmsg`) observable after the failing call. -/
inductive ExecOutcome where
  | success (rows : List (List (Option String)))
  | failure (errcode : Int) (errmsg : String)
deriving Repr

/-- The external database engine, consumed as a query-to-outcome map. -/
structure SqliteDb where
  exec : String → ExecOutcome

/-- Error payload of the `std::system_error` thrown by `table_exists` and
`get_table_info`: engine error code and engine error message. -/
structure DbError where
  code : Int
  message : String
deriving DecidableEq, Repr

/-- Model of C `atoi` on the decimal strings produced by the engine for this
callback (a count or a flag): parse as an integer, 0 when not parseable. -/
def atoiModel (s : String) : Int :=
  (s.toInt?).getD 0

/-- The query text built by `table_exists` (storage_impl.h lines 34-38). -/
def table_exists_query (tableName : String) : String :=
  "SELECT COUNT(*) FROM sqlite_master WHERE type = " ++ squote ++ "table" ++ squote ++
    " AND name = " ++ squote ++ tableName ++ squote

/-- The `table_exists` member (storage_impl.h lines 32-56): run the count
query; on engine failure throw the engine code and message (modelled as
`Except.error`); otherwise the callback sets the flag from the first column
of each row (SQLite passes a non-NULL count here; a NULL is read as the empty
string). -/
def table_exists (db : SqliteDb) (tableName : String) : Except DbError Bool :=
  match db.exec (table_exists_query tableName) with
  | ExecOutcome.failure code msg => Except.error ⟨code, msg⟩
  | ExecOutcome.success rows =>
    Except.ok (rows.foldl
      (fun res row =>
        match row with
        | [] => res
        | argv0 :: _ => atoiModel (argv0.getD "") != 0)
      false)

/-- The query text built by `get_table_info` (storage_impl.h line 105). -/
def get_table_info_query (tableName : String) : String :=
  "PRAGMA table_info(" ++ squote ++ tableName ++ squote ++ ")"

/-- Row callback of `get_table_info` (storage_impl.h lines 109-123): read
cid, name, type, notnull, dflt_value (NULL becomes the empty string, the only
column the code null-checks) and pk. PRAGMA table_info always produces these
six columns; a shorter row is skipped. -/
def tableInfoOfRow (res : List TableInfo) (row : List (Option String)) :
    List TableInfo :=
  match row with
  | c0 :: c1 :: c2 :: c3 :: c4 :: c5 :: _ =>
    res ++ [⟨atoiModel (c0.getD ""), c1.getD "", c2.getD "",
      atoiModel (c3.getD "") != 0, c4.getD "", atoiModel (c5.getD "")⟩]
  | _ => res

/-- The `get_table_info` member (storage_impl.h lines 103-131): run the
PRAGMA query; on engine failure throw the engine code and message; otherwise
accumulate one `table_info` per row. -/
def get_table_info (db : SqliteDb) (tableName : String) :
    Except DbError (List TableInfo) :=
  match db.exec (get_table_info_query tableName) with
  | ExecOutcome.failure code msg => Except.error ⟨code, msg⟩
  | ExecOutcome.success rows => Except.ok (rows.foldl tableInfoOfRow [])

/-- The storage layer state visible to `schema_status`: the declared table
definition held by the object (`this->table`). -/
structure StorageImpl where
  table : SchemaTable
deriving DecidableEq, Repr

/-- Method-style embedding of the const member `schema_status` (storage_impl.h
lines 358-434): the body reads `this->table`, takes by-value copies of the
declared column metadata (`this->table.get_table_info()` returns a fresh
vector) and hands those copies to `calculate_remove_add_columns`, which
consumes them; the object state is returned alongside the result. -/
def StorageImpl.schema_status_method (s : StorageImpl)
    (supportsDropColumn supportsGeneratedColumns tableExistsInDb : Bool)
    (dbTableInfoInput : List TableInfo) (preserve : Bool) :
    SyncSchemaResult × StorageImpl :=
  (schema_status supportsDropColumn supportsGeneratedColumns s.table tableExistsInDb
    dbTableInfoInput preserve, s)

/-- Name projection of a column list. -/
def namesOf (l : List TableInfo) : List String :=
  l.map TableInfo.name

/-- Boolean witness of a shared-name attribute mismatch between the two lists:
some declared column has a database column of the same name that is not
attribute-equal to it. -/
def hasSharedMismatch (storage db : List TableInfo) : Bool :=
  storage.any (fun c => db.any (fun d => d.name == c.name && !columnsAreEqual d c))

theorem getElem_append_cons_length {α : Type} (l1 : List α) (c : α) (l2 : List α)
    (h : l1.length < (l1 ++ c :: l2).length) : (l1 ++ c :: l2)[l1.length] = c := by
  induction l1 with
  | nil => simp
  | cons a l1 ih =>
    simpa using ih (by simp)

theorem eraseIdx_append_cons_length {α : Type} (l1 : List α) (c : α) (l2 : List α) :
    (l1 ++ c :: l2).eraseIdx l1.length = l1 ++ l2 := by
  induction l1 with
  | nil => simp
  | cons a l1 ih => simpa [List.eraseIdx] using ih

theorem cracLoop_eq_cracGo (rest : List TableInfo) :
    ∀ (prefixKept columnsToAdd db : List TableInfo),
      cracLoop columnsToAdd (prefixKept ++ rest) db prefixKept.length =
        cracGo columnsToAdd prefixKept rest db := by
  induction rest with
  | nil =>
    intro pfx toAdd db
    rw [cracLoop]
    simp [cracGo]
  | cons c rest ih =>
    intro pfx toAdd db
    rw [cracLoop]
    have hlt : pfx.length < (pfx ++ c :: rest).length := by simp
    rw [dif_pos hlt]
    simp only [getElem_append_cons_length pfx c rest hlt]
    cases hfind : db.find? (fun ti => ti.name == c.name) with
    | none =>
      rw [cracGo]
      rw [hfind]
      have h1 : pfx ++ c :: rest = (pfx ++ [c]) ++ rest := by simp
      have h2 : pfx.length + 1 = (pfx ++ [c]).length := by simp
      rw [h1, h2]
      exact ih (pfx ++ [c]) (toAdd ++ [c]) db
    | some d =>
      rw [cracGo]
      rw [hfind]
      dsimp only
      by_cases heq : columnsAreEqual d c = true
      · rw [if_pos heq, if_pos heq]
        rw [eraseIdx_append_cons_length]
        exact ih pfx toAdd (db.eraseP fun ti => ti.name == c.name)
      · rw [if_neg heq, if_neg heq]

theorem calculate_remove_add_columns_eq_cracGo (storage db : List TableInfo) :
    calculate_remove_add_columns storage db = cracGo [] [] storage db :=
  cracLoop_eq_cracGo storage [] [] db

theorem namesOf_cons (a : TableInfo) (l : List TableInfo) :
    namesOf (a :: l) = a.name :: namesOf l := rfl

theorem hasSharedMismatch_cons (c : TableInfo) (rest db : List TableInfo) :
    hasSharedMismatch (c :: rest) db =
      (db.any (fun d => d.name == c.name && !columnsAreEqual d c) ||
        hasSharedMismatch rest db) := by
  simp [hasSharedMismatch]

theorem name_inj_of_nodup {db : List TableInfo} (hnd : (namesOf db).Nodup)
    {x y : TableInfo} (hx : x ∈ db) (hy : y ∈ db) (h : x.name = y.name) : x = y :=
  List.inj_on_of_nodup_map hnd hx hy h

theorem nodup_namesOf_eraseP (p : TableInfo → Bool) (db : List TableInfo)
    (h : (namesOf db).Nodup) : (namesOf (db.eraseP p)).Nodup :=
  List.Nodup.sublist (List.Sublist.map TableInfo.name (List.eraseP_sublist db)) h

theorem any_congr_mem {α : Type} (l : List α) (p q : α → Bool)
    (h : ∀ x ∈ l, p x = q x) : l.any p = l.any q := by
  induction l with
  | nil => rfl
  | cons a l ih =>
    simp only [List.any_cons]
    rw [h a (by simp), ih (fun x hx => h x (List.mem_cons_of_mem a hx))]

theorem any_eraseP_eq (p q : TableInfo → Bool) :
    ∀ db : List TableInfo, (∀ x ∈ db, p x = true → q x = false) →
      (db.eraseP p).any q = db.any q := by
  intro db
  induction db with
  | nil => intro _; rfl
  | cons a db ih =>
    intro h
    rw [List.eraseP_cons]
    cases hpa : p a with
    | true =>
      simp only [cond_true]
      have hqa : q a = false := h a (by simp) hpa
      simp [List.any_cons, hqa]
    | false =>
      simp only [cond_false, List.any_cons]
      rw [ih (fun x hx hpx => h x (List.mem_cons_of_mem a hx) hpx)]

theorem cracGo_notEqual_eq (storage : List TableInfo) :
    ∀ (db columnsToAdd prefixKept : List TableInfo),
      (namesOf storage).Nodup → (namesOf db).Nodup →
      (cracGo columnsToAdd prefixKept storage db).notEqual = hasSharedMismatch storage db := by
  induction storage with
  | nil =>
    intro db toAdd pfx _ _
    simp [cracGo, hasSharedMismatch]
  | cons c rest ih =>
    intro db toAdd pfx hs hd
    have hsc : (c.name :: namesOf rest).Nodup := by rw [namesOf_cons] at hs; exact hs
    have hsTail : (namesOf rest).Nodup := hsc.of_cons
    have hcNotIn : c.name ∉ namesOf rest := (List.nodup_cons.mp hsc).1
    rw [cracGo]
    cases hfind : db.find? (fun ti => ti.name == c.name) with
    | none =>
      dsimp only
      rw [ih db (toAdd ++ [c]) (pfx ++ [c]) hsTail hd]
      have hnone := List.find?_eq_none.mp hfind
      have h1 : db.any (fun d => d.name == c.name && !columnsAreEqual d c) = false := by
        rw [List.any_eq_false]
        intro d hdmem
        simp [Bool.eq_false_iff.mp (Bool.eq_false_iff.mpr (hnone d hdmem))]
      rw [hasSharedMismatch_cons, h1, Bool.false_or]
    | some d =>
      dsimp only
      have hdm : d ∈ db := List.mem_of_find?_eq_some hfind
      have hdn : (d.name == c.name) = true := by
        have := List.find?_some hfind
        simpa using this
      have hdname : d.name = c.name := by simpa using hdn
      by_cases heq : columnsAreEqual d c = true
      · rw [if_pos heq]
        rw [ih (db.eraseP fun ti => ti.name == c.name) toAdd pfx hsTail
          (nodup_namesOf_eraseP _ _ hd)]
        rw [hasSharedMismatch_cons]
        have h1 : db.any (fun d2 => d2.name == c.name && !columnsAreEqual d2 c) = false := by
          rw [List.any_eq_false]
          intro d2 hd2
          by_cases hn : d2.name = c.name
          · have hd2d : d2 = d := name_inj_of_nodup hd hd2 hdm (hn.trans hdname.symm)
            simp [hd2d, heq]
          · simp [hn]
        rw [h1, Bool.false_or]
        unfold hasSharedMismatch
        apply any_congr_mem
        intro c2 hc2
        apply any_eraseP_eq
        intro x _ hpx
        have hxn : x.name = c.name := by simpa using hpx
        have hc2n : c.name ≠ c2.name := by
          intro hcontra
          exact hcNotIn (hcontra ▸ (List.mem_map_of_mem TableInfo.name hc2))
        simp [hxn, hc2n]
      · rw [if_neg heq]
        rw [hasSharedMismatch_cons]
        have h1 : db.any (fun d2 => d2.name == c.name && !columnsAreEqual d2 c) = true := by
          rw [List.any_eq_true]
          exact ⟨d, hdm, by simp [hdn, Bool.eq_false_iff.mpr heq]⟩
        simp [h1]

theorem nameIn_cons (nm : String) (a : TableInfo) (l : List TableInfo) :
    nameIn nm (a :: l) = ((a.name == nm) || nameIn nm l) := by
  simp [nameIn]

theorem nameIn_eraseP (nm cn : String) (hne : nm ≠ cn) :
    ∀ db : List TableInfo,
      nameIn nm (db.eraseP (fun x => x.name == cn)) = nameIn nm db := by
  intro db
  induction db with
  | nil => rfl
  | cons a db ih =>
    rw [List.eraseP_cons]
    cases hpa : (a.name == cn) with
    | true =>
      simp only [cond_true]
      have ha : a.name = cn := by simpa using hpa
      have hfalse : (a.name == nm) = false := by
        simp [ha]
        exact fun hcontra => hne hcontra.symm
      rw [nameIn_cons, hfalse, Bool.false_or]
    | false =>
      simp only [cond_false]
      rw [nameIn_cons, nameIn_cons, ih]

theorem filter_nameIn_eraseP (cn : String) (r : TableInfo → Bool) :
    ∀ db : List TableInfo, (namesOf db).Nodup →
      db.filter (fun x => !((cn == x.name) || r x)) =
        (db.eraseP (fun x => x.name == cn)).filter (fun x => !(r x)) := by
  intro db
  induction db with
  | nil => intro _; rfl
  | cons a db ih =>
    intro hnd
    have hndc : (a.name :: namesOf db).Nodup := by rw [namesOf_cons] at hnd; exact hnd
    have hndTail : (namesOf db).Nodup := hndc.of_cons
    rw [List.eraseP_cons]
    cases hpa : (a.name == cn) with
    | true =>
      have ha : a.name = cn := by simpa using hpa
      simp only [cond_true]
      have hdrop : (!((cn == a.name) || r a)) = false := by simp [ha]
      rw [List.filter_cons, hdrop]
      simp only [Bool.false_eq_true, if_false]
      apply List.filter_congr
      intro x hx
      have hxn : x.name ≠ cn := by
        intro hcontra
        exact (List.nodup_cons.mp hndc).1
          (by
            have : x.name ∈ namesOf db := List.mem_map_of_mem TableInfo.name hx
            rw [hcontra, ← ha] at this
            exact this)
      have hcnx : (cn == x.name) = false := by
        simp
        exact fun hcontra => hxn hcontra.symm
      rw [hcnx, Bool.false_or]
    | false =>
      simp only [cond_false]
      have ha : a.name ≠ cn := by simpa using hpa
      have hcna : (cn == a.name) = false := by
        simp
        exact fun hcontra => ha hcontra.symm
      rw [List.filter_cons, List.filter_cons, hcna, Bool.false_or, ih hndTail]

theorem cracGo_no_mismatch_eq (storage : List TableInfo) :
    ∀ (db columnsToAdd prefixKept : List TableInfo),
      (namesOf storage).Nodup → (namesOf db).Nodup →
      hasSharedMismatch storage db = false →
      cracGo columnsToAdd prefixKept storage db =
        ⟨false,
          columnsToAdd ++ storage.filter (fun c => !nameIn c.name db),
          prefixKept ++ storage.filter (fun c => !nameIn c.name db),
          db.filter (fun d => !nameIn d.name storage)⟩ := by
  induction storage with
  | nil =>
    intro db toAdd pfx _ _ _
    simp [cracGo, nameIn]
  | cons c rest ih =>
    intro db toAdd pfx hs hd hmm
    have hsc : (c.name :: namesOf rest).Nodup := by rw [namesOf_cons] at hs; exact hs
    have hsTail : (namesOf rest).Nodup := hsc.of_cons
    have hcNotIn : c.name ∉ namesOf rest := (List.nodup_cons.mp hsc).1
    rw [hasSharedMismatch_cons, Bool.or_eq_false_iff] at hmm
    obtain ⟨hmmHead, hmmTail⟩ := hmm
    rw [cracGo]
    cases hfind : db.find? (fun ti => ti.name == c.name) with
    | none =>
      dsimp only
      have hnone := List.find?_eq_none.mp hfind
      have hnotIn : nameIn c.name db = false := by
        rw [nameIn, List.any_eq_false]
        intro d hdmem
        exact hnone d hdmem
      rw [ih db (toAdd ++ [c]) (pfx ++ [c]) hsTail hd hmmTail]
      have hfc : (c :: rest).filter (fun x => !nameIn x.name db) =
          c :: rest.filter (fun x => !nameIn x.name db) := by
        rw [List.filter_cons]
        simp [hnotIn]
      rw [hfc]
      have hdbf : db.filter (fun d => !nameIn d.name (c :: rest)) =
          db.filter (fun d => !nameIn d.name rest) := by
        apply List.filter_congr
        intro d hdmem
        have : (c.name == d.name) = false := by
          simp
          intro hcontra
          have := hnone d hdmem
          simp [hcontra] at this
        rw [nameIn_cons, this, Bool.false_or]
      rw [hdbf]
      simp
    | some d =>
      dsimp only
      have hdm : d ∈ db := List.mem_of_find?_eq_some hfind
      have hdn : (d.name == c.name) = true := by
        have := List.find?_some hfind
        simpa using this
      have hdname : d.name = c.name := by simpa using hdn
      have heq : columnsAreEqual d c = true := by
        by_contra hne
        have h2 : db.any (fun d2 => d2.name == c.name && !columnsAreEqual d2 c) = true := by
          rw [List.any_eq_true]
          exact ⟨d, hdm, by simp [hdn, Bool.eq_false_iff.mpr hne]⟩
        rw [h2] at hmmHead
        cases hmmHead
      rw [if_pos heq]
      have hmmTail2 : hasSharedMismatch rest (db.eraseP fun ti => ti.name == c.name) = false := by
        unfold hasSharedMismatch at hmmTail ⊢
        rw [List.any_eq_false] at hmmTail ⊢
        intro c2 hc2 hcontra
        apply hmmTail c2 hc2
        rw [List.any_eq_true] at hcontra ⊢
        obtain ⟨x, hx, hpx⟩ := hcontra
        exact ⟨x, (List.eraseP_sublist db).subset hx, hpx⟩
      rw [ih (db.eraseP fun ti => ti.name == c.name) toAdd pfx hsTail
        (nodup_namesOf_eraseP _ _ hd) hmmTail2]
      have hcIn : nameIn c.name db = true := by
        rw [nameIn, List.any_eq_true]
        exact ⟨d, hdm, hdn⟩
      have hstorf : (c :: rest).filter (fun x => !nameIn x.name db) =
          rest.filter (fun x => !nameIn x.name (db.eraseP fun ti => ti.name == c.name)) := by
        have hcond : (!nameIn c.name db) = false := by rw [hcIn]; rfl
        rw [List.filter_cons, hcond]
        simp only [Bool.false_eq_true, if_false]
        apply List.filter_congr
        intro x hx
        have hxn : x.name ≠ c.name := by
          intro hcontra
          exact hcNotIn (hcontra ▸ List.mem_map_of_mem TableInfo.name hx)
        rw [nameIn_eraseP x.name c.name hxn db]
      have hdbf : db.filter (fun x => !nameIn x.name (c :: rest)) =
          (db.eraseP fun ti => ti.name == c.name).filter (fun x => !nameIn x.name rest) := by
        have hcongr : db.filter (fun x => !nameIn x.name (c :: rest)) =
            db.filter (fun x => !((c.name == x.name) || nameIn x.name rest)) := by
          apply List.filter_congr
          intro x _
          rw [nameIn_cons]
        rw [hcongr]
        exact filter_nameIn_eraseP c.name (fun x => nameIn x.name rest) db hd
      rw [hstorf, hdbf]

theorem calculate_notEqual_eq (storage db : List TableInfo)
    (hs : (namesOf storage).Nodup) (hd : (namesOf db).Nodup) :
    (calculate_remove_add_columns storage db).notEqual = hasSharedMismatch storage db := by
  rw [calculate_remove_add_columns_eq_cracGo]
  exact cracGo_notEqual_eq storage db [] [] hs hd

theorem calculate_no_mismatch_eq (storage db : List TableInfo)
    (hs : (namesOf storage).Nodup) (hd : (namesOf db).Nodup)
    (hmm : hasSharedMismatch storage db = false) :
    calculate_remove_add_columns storage db =
      ⟨false,
        storage.filter (fun c => !nameIn c.name db),
        storage.filter (fun c => !nameIn c.name db),
        db.filter (fun d => !nameIn d.name storage)⟩ := by
  rw [calculate_remove_add_columns_eq_cracGo]
  have h := cracGo_no_mismatch_eq storage db [] [] hs hd hmm
  simpa using h

theorem cracLoopFuel_eq_of_lt (fuel : Nat) :
    ∀ (columnsToAdd storageTableInfo dbTableInfo : List TableInfo) (i : Nat),
      storageTableInfo.length - i < fuel →
      cracLoopFuel fuel columnsToAdd storageTableInfo dbTableInfo i =
        some (cracLoop columnsToAdd storageTableInfo dbTableInfo i) := by
  induction fuel with
  | zero => intro _ _ _ _ h; omega
  | succ fuel ih =>
    intro toAdd storage db i h
    rw [cracLoop, cracLoopFuel]
    by_cases hlt : i < storage.length
    · rw [dif_pos hlt, dif_pos hlt]
      cases hfind : db.find? (fun ti => ti.name == storage[i].name) with
      | none =>
        dsimp only
        exact ih (toAdd ++ [storage[i]]) storage db (i + 1) (by omega)
      | some d =>
        dsimp only
        by_cases heq : columnsAreEqual d storage[i] = true
        · rw [if_pos heq, if_pos heq]
          apply ih
          rw [List.length_eraseIdx, if_pos hlt]
          omega
        · rw [if_neg heq, if_neg heq]
    · rw [dif_neg hlt, dif_neg hlt]

/-- Claim C10: `calculate_remove_add_columns` terminates on every input pair
of column lists, duplicates included: each loop iteration either advances the
index or erases one storage column keeping the index, so the count of
unprocessed storage columns strictly decreases; the step-counting variant
`cracLoopFuel` therefore finishes (returns `some`) within any fuel bound
exceeding that count, agreeing with the total loop `cracLoop` that underlies
`calculate_remove_add_columns`. -/
theorem crac_loop_terminates (columnsToAdd storageTableInfo dbTableInfo : List TableInfo)
    (i fuel : Nat) (h : storageTableInfo.length - i < fuel) :
    cracLoopFuel fuel columnsToAdd storageTableInfo dbTableInfo i =
      some (cracLoop columnsToAdd storageTableInfo dbTableInfo i) ∧
    cracLoopFuel (storageTableInfo.length + 1) [] storageTableInfo dbTableInfo 0 =
      some (calculate_remove_add_columns storageTableInfo dbTableInfo) :=
  ⟨cracLoopFuel_eq_of_lt fuel columnsToAdd storageTableInfo dbTableInfo i h,
    cracLoopFuel_eq_of_lt (storageTableInfo.length + 1) [] storageTableInfo dbTableInfo 0
      (by omega)⟩

/-- Witness for C10 at a concrete input with a duplicated column name on both
sides. -/
theorem crac_loop_terminates_witness :
    (2 : Nat) - 0 < 3 ∧
    cracLoopFuel 3 [] [⟨0, "a", "INT", false, "", 0⟩, ⟨1, "a", "INT", false, "", 0⟩]
        [⟨0, "a", "INT", false, "", 0⟩] 0 =
      some (cracLoop [] [⟨0, "a", "INT", false, "", 0⟩, ⟨1, "a", "INT", false, "", 0⟩]
        [⟨0, "a", "INT", false, "", 0⟩] 0) :=
  ⟨by decide,
    (crac_loop_terminates [] [⟨0, "a", "INT", false, "", 0⟩, ⟨1, "a", "INT", false, "", 0⟩]
      [⟨0, "a", "INT", false, "", 0⟩] 0 3 (by decide)).1⟩

/-- Claim C6: when the diff reports no mismatch, `columnsToAdd` holds exactly
the declared columns whose names are absent from the database list, the
working database list retains exactly the database columns whose names are
absent from the declared list, and the working storage list likewise retains
only the to-add columns — every shared-name pair has been consumed from both
working lists. Name uniqueness within each list is the data-model invariant
of the spec (section 3). -/
theorem crac_no_mismatch_outputs (storageTableInfo dbTableInfo : List TableInfo)
    (hs : (namesOf storageTableInfo).Nodup) (hd : (namesOf dbTableInfo).Nodup)
    (hne : (calculate_remove_add_columns storageTableInfo dbTableInfo).notEqual = false) :
    (calculate_remove_add_columns storageTableInfo dbTableInfo).columnsToAdd =
      storageTableInfo.filter (fun c => !nameIn c.name dbTableInfo) ∧
    (calculate_remove_add_columns storageTableInfo dbTableInfo).dbTableInfo =
      dbTableInfo.filter (fun d => !nameIn d.name storageTableInfo) ∧
    (calculate_remove_add_columns storageTableInfo dbTableInfo).storageTableInfo =
      storageTableInfo.filter (fun c => !nameIn c.name dbTableInfo) := by
  have hmm : hasSharedMismatch storageTableInfo dbTableInfo = false := by
    rw [← calculate_notEqual_eq storageTableInfo dbTableInfo hs hd]
    exact hne
  rw [calculate_no_mismatch_eq storageTableInfo dbTableInfo hs hd hmm]
  exact ⟨rfl, rfl, rfl⟩

/-- Witness for C6 at a concrete input: declared columns a, b against
database columns a, x; b is to add, x is the retained extra. -/
theorem crac_no_mismatch_outputs_witness :
    (calculate_remove_add_columns
        [⟨0, "a", "INT", false, "", 0⟩, ⟨1, "b", "TEXT", true, "7", 0⟩]
        [⟨0, "a", "INT", false, "", 0⟩, ⟨1, "x", "TEXT", false, "", 0⟩]).columnsToAdd =
      [⟨1, "b", "TEXT", true, "7", 0⟩] ∧
    (calculate_remove_add_columns
        [⟨0, "a", "INT", false, "", 0⟩, ⟨1, "b", "TEXT", true, "7", 0⟩]
        [⟨0, "a", "INT", false, "", 0⟩, ⟨1, "x", "TEXT", false, "", 0⟩]).dbTableInfo =
      [⟨1, "x", "TEXT", false, "", 0⟩] := by
  have h := crac_no_mismatch_outputs
    [⟨0, "a", "INT", false, "", 0⟩, ⟨1, "b", "TEXT", true, "7", 0⟩]
    [⟨0, "a", "INT", false, "", 0⟩, ⟨1, "x", "TEXT", false, "", 0⟩]
    (by decide) (by decide) (by rw [calculate_remove_add_columns_eq_cracGo]; decide)
  exact ⟨by rw [h.1]; decide, by rw [h.2.1]; decide⟩

theorem namesOf_tableInfoRows : ∀ (i : Nat) (cols : List Column),
    namesOf (tableInfoRows i cols) = cols.map Column.name := by
  intro i cols
  induction cols generalizing i with
  | nil => rfl
  | cons c rest ih =>
    rw [tableInfoRows, List.map_cons, namesOf_cons, ih (i + 1)]

theorem namesOf_get_table_info (t : SchemaTable) :
    namesOf t.get_table_info = t.columns.map Column.name :=
  namesOf_tableInfoRows 0 t.columns

/-- Claim C1: a shared-name column whose notNull flag, default-value presence
or primary-key rank differs between the declared list and the inspected list
(a difference in primary-key rank alone included) makes the comparison stop
with the mismatch flag set, and `schema_status` returns dropped_and_recreated
regardless of any other extra or missing columns and of the preserve flag and
capabilities. Name uniqueness within each list is the data-model invariant of
the spec (section 3). -/
theorem schema_status_mismatch_dropped (supportsDropColumn supportsGeneratedColumns : Bool)
    (t : SchemaTable) (db : List TableInfo) (preserve : Bool)
    (hs : (namesOf t.get_table_info).Nodup) (hd : (namesOf db).Nodup)
    (hmm : ∃ c ∈ t.get_table_info, ∃ d ∈ db, c.name = d.name ∧
      (c.notnull ≠ d.notnull ∨
        ¬((0 < c.dflt_value.length) ↔ (0 < d.dflt_value.length)) ∨ c.pk ≠ d.pk)) :
    (calculate_remove_add_columns t.get_table_info db).notEqual = true ∧
    schema_status supportsDropColumn supportsGeneratedColumns t true db preserve =
      SyncSchemaResult.dropped_and_recreated := by
  have hmmB : hasSharedMismatch t.get_table_info db = true := by
    obtain ⟨c, hc, d, hdmem, hname, hdiff⟩ := hmm
    rw [hasSharedMismatch, List.any_eq_true]
    refine ⟨c, hc, ?_⟩
    rw [List.any_eq_true]
    refine ⟨d, hdmem, ?_⟩
    have hbn : (d.name == c.name) = true := by simp [hname]
    have hceq : columnsAreEqual d c = false := by
      rcases hdiff with hnn | hdf | hpk
      · have : (d.notnull == c.notnull) = false := by
          simp
          exact fun hcontra => hnn hcontra.symm
        simp [columnsAreEqual, this]
      · have : (decide (0 < d.dflt_value.length) ==
            decide (0 < c.dflt_value.length)) = false := by
          simp [decide_eq_decide]
          exact fun hcontra => hdf (Iff.symm hcontra)
        simp [columnsAreEqual, this]
      · have : (d.pk == c.pk) = false := by
          simp
          exact fun hcontra => hpk hcontra.symm
        simp [columnsAreEqual, this]
    simp [hbn, hceq]
  have hne : (calculate_remove_add_columns t.get_table_info db).notEqual = true := by
    rw [calculate_notEqual_eq _ _ hs hd, hmmB]
  refine ⟨hne, ?_⟩
  simp [schema_status, hne]

/-- Witness for C1: the declared column differs from the database column in
primary-key rank alone; the database also has an extra column and the
declared list a missing one, and the outcome is still a full rebuild. -/
theorem schema_status_mismatch_dropped_witness :
    schema_status true true
        ⟨"users", [⟨"a", "INT", false, "", 1, none⟩, ⟨"b", "TEXT", false, "", 0, none⟩]⟩
        true
        [⟨0, "a", "INT", false, "", 0⟩, ⟨1, "x", "TEXT", false, "", 0⟩] false =
      SyncSchemaResult.dropped_and_recreated :=
  (schema_status_mismatch_dropped true true
    ⟨"users", [⟨"a", "INT", false, "", 1, none⟩, ⟨"b", "TEXT", false, "", 0, none⟩]⟩
    [⟨0, "a", "INT", false, "", 0⟩, ⟨1, "x", "TEXT", false, "", 0⟩] false
    (by rw [namesOf_get_table_info]; decide) (by decide)
    ⟨⟨Int.ofNat 0, "a", "INT", false, "", 1⟩, by decide,
      ⟨0, "a", "INT", false, "", 0⟩, by decide,
      rfl, Or.inr (Or.inr (by decide))⟩).2

/-- Claim C5: when every declared column is attribute-equal to a database
column of the same name and vice versa (no column on only one side),
`schema_status` returns already_in_sync. Name uniqueness within each list is
the data-model invariant of the spec (section 3). -/
theorem schema_status_in_sync (supportsDropColumn supportsGeneratedColumns : Bool)
    (t : SchemaTable) (db : List TableInfo) (preserve : Bool)
    (hs : (namesOf t.get_table_info).Nodup) (hd : (namesOf db).Nodup)
    (hfwd : ∀ c ∈ t.get_table_info, ∃ d ∈ db, d.name = c.name ∧ columnsAreEqual d c = true)
    (hbwd : ∀ d ∈ db, ∃ c ∈ t.get_table_info, c.name = d.name) :
    schema_status supportsDropColumn supportsGeneratedColumns t true db preserve =
      SyncSchemaResult.already_in_sync := by
  have hmmB : hasSharedMismatch t.get_table_info db = false := by
    rw [hasSharedMismatch, List.any_eq_false]
    intro c hc
    rw [Bool.not_eq_true, List.any_eq_false]
    intro d2 hd2
    by_cases hn : d2.name = c.name
    · obtain ⟨d, hdmem, hdn, hdeq⟩ := hfwd c hc
      have hd2d : d2 = d := name_inj_of_nodup hd hd2 hdmem (hn.trans hdn.symm)
      simp [hd2d, hdeq]
    · simp [hn]
  have hcalc := calculate_no_mismatch_eq t.get_table_info db hs hd hmmB
  have htoAdd : t.get_table_info.filter (fun c => !nameIn c.name db) = [] := by
    rw [List.filter_eq_nil_iff]
    intro c hc
    obtain ⟨d, hdmem, hdn, _⟩ := hfwd c hc
    have : nameIn c.name db = true := by
      rw [nameIn, List.any_eq_true]
      exact ⟨d, hdmem, by simp [hdn]⟩
    simp [this]
  have hdbRem : db.filter (fun d => !nameIn d.name t.get_table_info) = [] := by
    rw [List.filter_eq_nil_iff]
    intro d hdmem
    obtain ⟨c, hc, hcn⟩ := hbwd d hdmem
    have : nameIn d.name t.get_table_info = true := by
      rw [nameIn, List.any_eq_true]
      exact ⟨c, hc, by simp [hcn]⟩
    simp [this]
  rw [htoAdd, hdbRem] at hcalc
  simp [schema_status, hcalc]

/-- Witness for C5: one declared column attribute-equal to the single
database column (different default text, same presence). -/
theorem schema_status_in_sync_witness :
    schema_status false false ⟨"users", [⟨"a", "INT", true, "7", 0, none⟩]⟩ true
        [⟨0, "a", "INTEGER", true, "8", 0⟩] true =
      SyncSchemaResult.already_in_sync :=
  schema_status_in_sync false false ⟨"users", [⟨"a", "INT", true, "7", 0, none⟩]⟩
    [⟨0, "a", "INTEGER", true, "8", 0⟩] true
    (by rw [namesOf_get_table_info]; decide) (by decide)
    (by
      intro c hc
      refine ⟨⟨0, "a", "INTEGER", true, "8", 0⟩, by decide, ?_⟩
      have : c = ⟨Int.ofNat 0, "a", "INT", true, "7", 0⟩ := by
        simpa [SchemaTable.get_table_info, tableInfoRows] using hc
      rw [this]
      exact ⟨rfl, by decide⟩)
    (by
      intro d hdmem
      refine ⟨⟨Int.ofNat 0, "a", "INT", true, "7", 0⟩, by decide, ?_⟩
      have : d = ⟨0, "a", "INTEGER", true, "8", 0⟩ := by simpa using hdmem
      rw [this])

/-- Declared columns that the diff will report as to-add: declared columns
whose names are absent from the database list. -/
def columnsToAddOf (t : SchemaTable) (db : List TableInfo) : List TableInfo :=
  t.get_table_info.filter (fun c => !nameIn c.name db)

/-- Database columns that the diff will leave in its working database list:
database columns whose names are absent from the declared list. -/
def extraDbColumnsOf (t : SchemaTable) (db : List TableInfo) : List TableInfo :=
  db.filter (fun d => !nameIn d.name t.get_table_info)

/-- Claim C2 (amended): for an existing table with no shared-name mismatch
and at least one extra database column: with preserveData false and DROP
COLUMN unsupported the outcome is dropped_and_recreated; otherwise, provided
no column to add itself forces a rebuild (generated-stored, or non-generated
notNull with no default), the outcome is old_columns_removed, or
new_columns_added_and_old_columns_removed when columns must also be added —
including preserveData true with DROP COLUMN unsupported, where the extra
columns stay in place; if a column to add does force a rebuild, the outcome
is dropped_and_recreated instead. Name uniqueness within each list is the
data-model invariant of the spec (section 3). -/
theorem schema_status_extra_db_columns (supportsDropColumn supportsGeneratedColumns : Bool)
    (t : SchemaTable) (db : List TableInfo) (preserve : Bool)
    (hs : (namesOf t.get_table_info).Nodup) (hd : (namesOf db).Nodup)
    (hnomm : ∀ c ∈ t.get_table_info, ∀ d ∈ db, d.name = c.name →
      columnsAreEqual d c = true)
    (hextra : extraDbColumnsOf t db ≠ []) :
    (preserve = false → supportsDropColumn = false →
      schema_status supportsDropColumn supportsGeneratedColumns t true db preserve =
        SyncSchemaResult.dropped_and_recreated) ∧
    ((preserve = true ∨ supportsDropColumn = true) →
      (columnsToAddOf t db).any
          (shouldEscalateForAddedColumn supportsGeneratedColumns t) = false →
      schema_status supportsDropColumn supportsGeneratedColumns t true db preserve =
        (if (columnsToAddOf t db).isEmpty then SyncSchemaResult.old_columns_removed
          else SyncSchemaResult.new_columns_added_and_old_columns_removed)) ∧
    ((preserve = true ∨ supportsDropColumn = true) →
      (columnsToAddOf t db).any
          (shouldEscalateForAddedColumn supportsGeneratedColumns t) = true →
      schema_status supportsDropColumn supportsGeneratedColumns t true db preserve =
        SyncSchemaResult.dropped_and_recreated) := by
  have hmmB : hasSharedMismatch t.get_table_info db = false := by
    rw [hasSharedMismatch, List.any_eq_false]
    intro c hc
    rw [Bool.not_eq_true, List.any_eq_false]
    intro d2 hd2
    by_cases hn : d2.name = c.name
    · simp [hnomm c hc d2 hd2 hn]
    · simp [hn]
  have hcalc := calculate_no_mismatch_eq t.get_table_info db hs hd hmmB
  have hlen : 0 < (db.filter (fun d => !nameIn d.name t.get_table_info)).length := by
    rw [List.length_pos]
    exact hextra
  refine ⟨?_, ?_, ?_⟩
  · intro hp hsdc
    simp [schema_status, hcalc, hp, hsdc, hlen]
  · intro hor hesc
    by_cases hE : columnsToAddOf t db = []
    · have hEl : (t.get_table_info.filter (fun c => !nameIn c.name db)).length = 0 := by
        rw [show t.get_table_info.filter (fun c => !nameIn c.name db) =
          columnsToAddOf t db from rfl, hE]
        rfl
      rcases hor with hp | hsdc
      · simp [schema_status, hcalc, hp, hlen, hEl, hE]
      · simp [schema_status, hcalc, hsdc, hlen, hEl, hE]
    · have hesc2 : (t.get_table_info.filter (fun c => !nameIn c.name db)).any
          (shouldEscalateForAddedColumn supportsGeneratedColumns t) = false := hesc
      have hEl : (t.get_table_info.filter (fun c => !nameIn c.name db)).length ≠ 0 := by
        intro hcontra
        exact hE (List.eq_nil_of_length_eq_zero hcontra)
      rcases hor with hp | hsdc
      · simp [schema_status, hcalc, hp, hlen, hEl, hesc2, hE]
      · simp [schema_status, hcalc, hsdc, hlen, hEl, hesc2, hE]
  · intro hor hesc
    have hesc2 : (t.get_table_info.filter (fun c => !nameIn c.name db)).any
        (shouldEscalateForAddedColumn supportsGeneratedColumns t) = true := hesc
    have hEl : (t.get_table_info.filter (fun c => !nameIn c.name db)).length ≠ 0 := by
      intro hcontra
      have h0 : columnsToAddOf t db = [] := List.eq_nil_of_length_eq_zero hcontra
      rw [h0] at hesc
      cases hesc
    rcases hor with hp | hsdc
    · simp [schema_status, hcalc, hp, hlen, hEl, hesc2]
    · simp [schema_status, hcalc, hsdc, hlen, hEl, hesc2]

/-- Declared table of the C2 counterexample: an in-sync column `a` plus a
NOT NULL column `g` with no default that is missing from the database. -/
def tableC2 : SchemaTable :=
  ⟨"users", [⟨"a", "INT", false, "", 0, none⟩, ⟨"g", "INT", true, "", 0, none⟩]⟩

/-- Database columns of the C2 counterexample: `a` in sync plus an extra
column `x` not declared. -/
def dbC2 : List TableInfo :=
  [⟨0, "a", "INT", false, "", 0⟩, ⟨1, "x", "TEXT", false, "", 0⟩]

/-- Counterexample to claim C2 as stated: existing table, no shared-name
mismatch, one extra database column, preserveData true (and DROP COLUMN even
supported) — yet the outcome is dropped_and_recreated, not
old_columns_removed or new_columns_added_and_old_columns_removed, because the
column to add is NOT NULL without a default and escalates to a rebuild. -/
theorem schema_status_extra_db_columns_cex :
    hasSharedMismatch tableC2.get_table_info dbC2 = false ∧
    extraDbColumnsOf tableC2 dbC2 = [⟨1, "x", "TEXT", false, "", 0⟩] ∧
    schema_status true true tableC2 true dbC2 true =
      SyncSchemaResult.dropped_and_recreated ∧
    schema_status true true tableC2 true dbC2 true ≠
      SyncSchemaResult.old_columns_removed ∧
    schema_status true true tableC2 true dbC2 true ≠
      SyncSchemaResult.new_columns_added_and_old_columns_removed := by
  have h : schema_status true true tableC2 true dbC2 true =
      SyncSchemaResult.dropped_and_recreated := by
    simp only [schema_status, calculate_remove_add_columns_eq_cracGo]
    decide
  refine ⟨by decide, by decide, h, ?_, ?_⟩
  · rw [h]; decide
  · rw [h]; decide

/-- Declared table of the C2 witness: the single in-sync column `a`. -/
def tableC2w : SchemaTable :=
  ⟨"users", [⟨"a", "INT", false, "", 0, none⟩]⟩

/-- Witness for the amended C2 at a concrete input: preserveData true, DROP
COLUMN unsupported, extra database column, nothing to add — outcome
old_columns_removed while the extra column is left in place. -/
theorem schema_status_extra_db_columns_witness :
    schema_status false false tableC2w true dbC2 true =
      SyncSchemaResult.old_columns_removed := by
  have h := (schema_status_extra_db_columns false false tableC2w dbC2 true
    (by rw [namesOf_get_table_info]; decide) (by decide)
    (by decide) (by decide)).2.1 (Or.inl rfl) (by decide)
  simpa using h

/-- Claim C3 (amended): when the table exists, there is no shared-name
mismatch, the declared list has columns absent from the database, and the
extra-database-column step did not itself force a rebuild (which it does
exactly when extra columns exist, preserveData is false and DROP COLUMN is
unsupported): if any column to add carries a generated-always constraint with
stored storage, or carries no generated-always constraint and is notNull with
no default, the outcome is dropped_and_recreated; otherwise every column to
add is addable in place and the outcome is new_columns_added, or
new_columns_added_and_old_columns_removed when extra database columns were
classified as removed in the preceding step. A column with a non-stored
generated-always constraint is addable even when notNull with no default. -/
theorem schema_status_add_columns (supportsDropColumn supportsGeneratedColumns : Bool)
    (t : SchemaTable) (db : List TableInfo) (preserve : Bool)
    (hs : (namesOf t.get_table_info).Nodup) (hd : (namesOf db).Nodup)
    (hnomm : ∀ c ∈ t.get_table_info, ∀ d ∈ db, d.name = c.name →
      columnsAreEqual d c = true)
    (htoAdd : columnsToAddOf t db ≠ [])
    (hstep3 : extraDbColumnsOf t db = [] ∨ preserve = true ∨ supportsDropColumn = true) :
    ((columnsToAddOf t db).any
        (shouldEscalateForAddedColumn supportsGeneratedColumns t) = true →
      schema_status supportsDropColumn supportsGeneratedColumns t true db preserve =
        SyncSchemaResult.dropped_and_recreated) ∧
    ((columnsToAddOf t db).any
        (shouldEscalateForAddedColumn supportsGeneratedColumns t) = false →
      schema_status supportsDropColumn supportsGeneratedColumns t true db preserve =
        (if (extraDbColumnsOf t db).isEmpty then SyncSchemaResult.new_columns_added
          else SyncSchemaResult.new_columns_added_and_old_columns_removed)) := by
  have hmmB : hasSharedMismatch t.get_table_info db = false := by
    rw [hasSharedMismatch, List.any_eq_false]
    intro c hc
    rw [Bool.not_eq_true, List.any_eq_false]
    intro d2 hd2
    by_cases hn : d2.name = c.name
    · simp [hnomm c hc d2 hd2 hn]
    · simp [hn]
  have hcalc := calculate_no_mismatch_eq t.get_table_info db hs hd hmmB
  have hEl : (t.get_table_info.filter (fun c => !nameIn c.name db)).length ≠ 0 := by
    intro hcontra
    exact htoAdd (List.eq_nil_of_length_eq_zero hcontra)
  constructor
  · intro hesc
    have hesc2 : (t.get_table_info.filter (fun c => !nameIn c.name db)).any
        (shouldEscalateForAddedColumn supportsGeneratedColumns t) = true := hesc
    by_cases hEx : extraDbColumnsOf t db = []
    · have hlen0 : (db.filter (fun d => !nameIn d.name t.get_table_info)).length = 0 := by
        rw [show db.filter (fun d => !nameIn d.name t.get_table_info) =
          extraDbColumnsOf t db from rfl, hEx]
        rfl
      simp [schema_status, hcalc, hlen0, hEl, hesc2]
    · have hlen : 0 < (db.filter (fun d => !nameIn d.name t.get_table_info)).length :=
        List.length_pos.mpr hEx
      rcases hstep3 with h0 | hp | hsdc
      · exact absurd h0 hEx
      · simp [schema_status, hcalc, hlen, hEl, hesc2, hp]
      · simp [schema_status, hcalc, hlen, hEl, hesc2, hsdc]
  · intro hesc
    have hesc2 : (t.get_table_info.filter (fun c => !nameIn c.name db)).any
        (shouldEscalateForAddedColumn supportsGeneratedColumns t) = false := hesc
    by_cases hEx : extraDbColumnsOf t db = []
    · have hlen0 : (db.filter (fun d => !nameIn d.name t.get_table_info)).length = 0 := by
        rw [show db.filter (fun d => !nameIn d.name t.get_table_info) =
          extraDbColumnsOf t db from rfl, hEx]
        rfl
      have hempty : (extraDbColumnsOf t db).isEmpty = true := by rw [hEx]; rfl
      simp [schema_status, hcalc, hlen0, hEl, hesc2, hempty]
    · have hlen : 0 < (db.filter (fun d => !nameIn d.name t.get_table_info)).length :=
        List.length_pos.mpr hEx
      have hempty : (extraDbColumnsOf t db).isEmpty = false := by
        cases hh : extraDbColumnsOf t db with
        | nil => exact absurd hh hEx
        | cons a l => rfl
      rcases hstep3 with h0 | hp | hsdc
      · exact absurd h0 hEx
      · simp [schema_status, hcalc, hlen, hEl, hesc2, hempty, hp]
      · simp [schema_status, hcalc, hlen, hEl, hesc2, hempty, hsdc]

/-- Declared table of the C3 counterexample: an in-sync column `a` plus a
generated-always VIRTUAL column `g` that is NOT NULL with no default and
missing from the database. -/
def tableC3 : SchemaTable :=
  ⟨"users", [⟨"a", "INT", false, "", 0, none⟩,
    ⟨"g", "INT", true, "", 0, some GeneratedStorageKind.virtual_kind⟩]⟩

/-- Database columns of the C3 counterexample: only `a`. -/
def dbC3 : List TableInfo :=
  [⟨0, "a", "INT", false, "", 0⟩]

/-- Counterexample to claim C3 as stated: the single column to add is notNull
with no default (and generated VIRTUAL), so the claim as stated demands
dropped_and_recreated, but the code treats any non-stored generated column as
addable in place and returns new_columns_added. -/
theorem schema_status_add_columns_cex :
    hasSharedMismatch tableC3.get_table_info dbC3 = false ∧
    columnsToAddOf tableC3 dbC3 = [⟨Int.ofNat 1, "g", "INT", true, "", 0⟩] ∧
    (⟨Int.ofNat 1, "g", "INT", true, "", 0⟩ : TableInfo).notnull = true ∧
    (⟨Int.ofNat 1, "g", "INT", true, "", 0⟩ : TableInfo).dflt_value.length = 0 ∧
    schema_status true true tableC3 true dbC3 false =
      SyncSchemaResult.new_columns_added ∧
    schema_status true true tableC3 true dbC3 false ≠
      SyncSchemaResult.dropped_and_recreated := by
  have h : schema_status true true tableC3 true dbC3 false =
      SyncSchemaResult.new_columns_added := by
    simp only [schema_status, calculate_remove_add_columns_eq_cracGo]
    decide
  refine ⟨by decide, by decide, by decide, by decide, h, ?_⟩
  rw [h]; decide

/-- Witness for the amended C3 at a concrete input: the generated VIRTUAL
notNull no-default column is added in place, with no extra database columns,
so the outcome is new_columns_added. -/
theorem schema_status_add_columns_witness :
    schema_status true true tableC3 true dbC3 false =
      SyncSchemaResult.new_columns_added := by
  have h := (schema_status_add_columns true true tableC3 dbC3 false
    (by rw [namesOf_get_table_info]; decide) (by decide)
    (by decide) (by decide) (Or.inl (by decide))).2 (by decide)
  simpa using h

/-- Two inspected columns that agree on every field except possibly the text
of the default value, whose presence (non-emptiness) agrees. -/
def tiEquivDflt (d d2 : TableInfo) : Prop :=
  d.cid = d2.cid ∧ d.name = d2.name ∧ d.type = d2.type ∧ d.notnull = d2.notnull ∧
  ((0 < d.dflt_value.length) ↔ (0 < d2.dflt_value.length)) ∧ d.pk = d2.pk

/-- Two declared columns that agree on every field except possibly the text
of the default value, whose presence agrees. -/
def colEquivDflt (c c2 : Column) : Prop :=
  c.name = c2.name ∧ c.type = c2.type ∧ c.notnull = c2.notnull ∧
  ((0 < c.dflt_value.length) ↔ (0 < c2.dflt_value.length)) ∧ c.pk = c2.pk ∧
  c.generatedStorage = c2.generatedStorage

theorem forall2_append_my {α β : Type} {R : α → β → Prop} :
    ∀ {l1 u1 : List α} {l2 u2 : List β}, List.Forall₂ R l1 l2 → List.Forall₂ R u1 u2 →
      List.Forall₂ R (l1 ++ u1) (l2 ++ u2) := by
  intro l1 u1 l2 u2 h hu
  induction h with
  | nil => exact hu
  | cons hab _ ih => exact List.Forall₂.cons hab ih

theorem columnsAreEqual_congr {d d2 c c2 : TableInfo}
    (hd : tiEquivDflt d d2) (hc : tiEquivDflt c c2) :
    columnsAreEqual d c = columnsAreEqual d2 c2 := by
  obtain ⟨_, hdn, _, hdnn, hddf, hdpk⟩ := hd
  obtain ⟨_, hcn, _, hcnn, hcdf, hcpk⟩ := hc
  unfold columnsAreEqual
  rw [hdn, hcn, hdnn, hcnn, hdpk, hcpk, decide_eq_decide.mpr hddf, decide_eq_decide.mpr hcdf]

theorem find?_name_rel {db db2 : List TableInfo}
    (h : List.Forall₂ tiEquivDflt db db2) (nm : String) :
    (db.find? (fun ti => ti.name == nm) = none ∧
      db2.find? (fun ti => ti.name == nm) = none) ∨
    (∃ d d2, db.find? (fun ti => ti.name == nm) = some d ∧
      db2.find? (fun ti => ti.name == nm) = some d2 ∧ tiEquivDflt d d2) := by
  induction h with
  | nil => exact Or.inl ⟨rfl, rfl⟩
  | cons hab hrest ih =>
    rename_i a b l1 l2
    have hn : a.name = b.name := hab.2.1
    by_cases hcond : (a.name == nm) = true
    · refine Or.inr ⟨a, b, ?_, ?_, hab⟩
      · exact List.find?_cons_of_pos _ hcond
      · exact List.find?_cons_of_pos _ (by rw [← hn]; exact hcond)
    · have e1 : List.find? (fun ti => ti.name == nm) (a :: l1) =
          List.find? (fun ti => ti.name == nm) l1 := List.find?_cons_of_neg l1 hcond
      have e2 : List.find? (fun ti => ti.name == nm) (b :: l2) =
          List.find? (fun ti => ti.name == nm) l2 :=
        List.find?_cons_of_neg l2 (by rw [← hn]; exact hcond)
      rw [e1, e2]
      exact ih

theorem eraseP_name_congr {db db2 : List TableInfo}
    (h : List.Forall₂ tiEquivDflt db db2) (nm : String) :
    List.Forall₂ tiEquivDflt (db.eraseP (fun ti => ti.name == nm))
      (db2.eraseP (fun ti => ti.name == nm)) := by
  induction h with
  | nil => exact List.Forall₂.nil
  | cons hab hrest ih =>
    rename_i a b l1 l2
    have hn : a.name = b.name := hab.2.1
    rw [List.eraseP_cons, List.eraseP_cons, ← hn]
    cases hcond : (a.name == nm) with
    | true =>
      simp only [cond_true]
      exact hrest
    | false =>
      simp only [cond_false]
      exact List.Forall₂.cons hab ih

theorem cracGo_congr :
    ∀ {storage storage2 : List TableInfo}, List.Forall₂ tiEquivDflt storage storage2 →
    ∀ {db db2 columnsToAdd columnsToAdd2 prefixKept prefixKept2 : List TableInfo},
      List.Forall₂ tiEquivDflt db db2 →
      List.Forall₂ tiEquivDflt columnsToAdd columnsToAdd2 →
      List.Forall₂ tiEquivDflt prefixKept prefixKept2 →
      (cracGo columnsToAdd prefixKept storage db).notEqual =
        (cracGo columnsToAdd2 prefixKept2 storage2 db2).notEqual ∧
      List.Forall₂ tiEquivDflt (cracGo columnsToAdd prefixKept storage db).columnsToAdd
        (cracGo columnsToAdd2 prefixKept2 storage2 db2).columnsToAdd ∧
      List.Forall₂ tiEquivDflt (cracGo columnsToAdd prefixKept storage db).storageTableInfo
        (cracGo columnsToAdd2 prefixKept2 storage2 db2).storageTableInfo ∧
      List.Forall₂ tiEquivDflt (cracGo columnsToAdd prefixKept storage db).dbTableInfo
        (cracGo columnsToAdd2 prefixKept2 storage2 db2).dbTableInfo := by
  intro storage storage2 hst
  induction hst with
  | nil =>
    intro db db2 toAdd toAdd2 pfx pfx2 hdb htoAdd hpfx
    exact ⟨rfl, htoAdd, hpfx, hdb⟩
  | cons hcc hrest ih =>
    rename_i c c2 rest rest2
    intro db db2 toAdd toAdd2 pfx pfx2 hdb htoAdd hpfx
    have hn : c.name = c2.name := hcc.2.1
    rw [cracGo, cracGo, ← hn]
    rcases find?_name_rel hdb c.name with ⟨hf1, hf2⟩ | ⟨d, d2, hf1, hf2, hdd⟩
    · rw [hf1, hf2]
      dsimp only
      exact ih hdb (forall2_append_my htoAdd (List.Forall₂.cons hcc List.Forall₂.nil))
        (forall2_append_my hpfx (List.Forall₂.cons hcc List.Forall₂.nil))
    · rw [hf1, hf2]
      dsimp only
      have hceq : columnsAreEqual d c = columnsAreEqual d2 c2 := columnsAreEqual_congr hdd hcc
      by_cases heq : columnsAreEqual d c = true
      · rw [if_pos heq, if_pos (by rw [← hceq]; exact heq)]
        exact ih (eraseP_name_congr hdb c.name) htoAdd hpfx
      · rw [if_neg heq, if_neg (by rw [← hceq]; exact heq)]
        refine ⟨rfl, htoAdd, ?_, hdb⟩
        exact forall2_append_my hpfx (List.Forall₂.cons hcc hrest)

theorem tableInfoRows_congr {cols cols2 : List Column}
    (h : List.Forall₂ colEquivDflt cols cols2) :
    ∀ i : Nat, List.Forall₂ tiEquivDflt (tableInfoRows i cols) (tableInfoRows i cols2) := by
  induction h with
  | nil => intro i; exact List.Forall₂.nil
  | cons hab hrest ih =>
    rename_i a b l1 l2
    intro i
    rw [tableInfoRows, tableInfoRows]
    refine List.Forall₂.cons ?_ (ih (i + 1))
    obtain ⟨h1, h2, h3, h4, h5, _⟩ := hab
    exact ⟨rfl, h1, h2, h3, h4, h5⟩

theorem findSome?_generated_congr {l1 l2 : List Column}
    (h : List.Forall₂ colEquivDflt l1 l2) (nm : String) :
    l1.findSome? (fun column => if column.name == nm then column.generatedStorage else none) =
      l2.findSome? (fun column => if column.name == nm then column.generatedStorage else none) := by
  induction h with
  | nil => rfl
  | cons hab hrest ih =>
    rename_i a b l1 l2
    rw [List.findSome?_cons, List.findSome?_cons]
    obtain ⟨h1, _, _, _, _, h6⟩ := hab
    rw [h1, h6]
    cases hcond : (b.name == nm) with
    | true =>
      simp only [if_true]
      cases b.generatedStorage with
      | none => exact ih
      | some g => rfl
    | false =>
      simp only [Bool.false_eq_true, if_false]
      exact ih

theorem find_generated_congr {t t2 : SchemaTable}
    (h : List.Forall₂ colEquivDflt t.columns t2.columns)
    (supportsGeneratedColumns : Bool) (nm : String) :
    find_column_generated_storage_type supportsGeneratedColumns t nm =
      find_column_generated_storage_type supportsGeneratedColumns t2 nm := by
  unfold find_column_generated_storage_type
  cases supportsGeneratedColumns with
  | false => rfl
  | true =>
    simp only [if_true]
    exact findSome?_generated_congr h nm

theorem shouldEscalate_congr {t t2 : SchemaTable}
    (ht : List.Forall₂ colEquivDflt t.columns t2.columns)
    (supportsGeneratedColumns : Bool) {x x2 : TableInfo} (hx : tiEquivDflt x x2) :
    shouldEscalateForAddedColumn supportsGeneratedColumns t x =
      shouldEscalateForAddedColumn supportsGeneratedColumns t2 x2 := by
  obtain ⟨_, hn, _, hnn, hdf, _⟩ := hx
  unfold shouldEscalateForAddedColumn
  rw [← hn, find_generated_congr ht supportsGeneratedColumns x.name]
  cases find_column_generated_storage_type supportsGeneratedColumns t2 x.name with
  | some g => rfl
  | none =>
    rw [hnn]
    have hlen : (x.dflt_value.length == 0) = (x2.dflt_value.length == 0) := by
      have h1 : x.dflt_value.length = 0 ↔ x2.dflt_value.length = 0 := by omega
      by_cases h0 : x.dflt_value.length = 0
      · rw [h0, h1.mp h0]
      · have h02 : x2.dflt_value.length ≠ 0 := fun hcontra => h0 (h1.mpr hcontra)
        simp [h0, h02]
    rw [hlen]

theorem any_congr_forall2 {α β : Type} {R : α → β → Prop} {p : α → Bool} {q : β → Bool}
    {l : List α} {l2 : List β} (h : List.Forall₂ R l l2)
    (hpq : ∀ x x2, R x x2 → p x = q x2) : l.any p = l2.any q := by
  induction h with
  | nil => rfl
  | cons hab _ ih =>
    rw [List.any_cons, List.any_cons, hpq _ _ hab, ih]

theorem schema_status_congr (supportsDropColumn supportsGeneratedColumns : Bool)
    {t t2 : SchemaTable} (tableExistsInDb : Bool) {db db2 : List TableInfo}
    (preserve : Bool) (ht : List.Forall₂ colEquivDflt t.columns t2.columns)
    (hdb : List.Forall₂ tiEquivDflt db db2) :
    schema_status supportsDropColumn supportsGeneratedColumns t tableExistsInDb db preserve =
      schema_status supportsDropColumn supportsGeneratedColumns t2 tableExistsInDb
        db2 preserve := by
  cases tableExistsInDb with
  | false => rfl
  | true =>
    have hrows : List.Forall₂ tiEquivDflt t.get_table_info t2.get_table_info :=
      tableInfoRows_congr ht 0
    obtain ⟨h1, h2, _, h4⟩ := cracGo_congr hrows hdb List.Forall₂.nil List.Forall₂.nil
    simp only [← calculate_remove_add_columns_eq_cracGo] at h1 h2 h4
    have hlen : (calculate_remove_add_columns t.get_table_info db).dbTableInfo.length =
        (calculate_remove_add_columns t2.get_table_info db2).dbTableInfo.length :=
      h4.length_eq
    have hlenAdd : (calculate_remove_add_columns t.get_table_info db).columnsToAdd.length =
        (calculate_remove_add_columns t2.get_table_info db2).columnsToAdd.length :=
      h2.length_eq
    have hany : (calculate_remove_add_columns t.get_table_info db).columnsToAdd.any
          (shouldEscalateForAddedColumn supportsGeneratedColumns t) =
        (calculate_remove_add_columns t2.get_table_info db2).columnsToAdd.any
          (shouldEscalateForAddedColumn supportsGeneratedColumns t2) :=
      any_congr_forall2 h2
        (fun x x2 hx => shouldEscalate_congr ht supportsGeneratedColumns hx)
    simp only [schema_status]
    rw [h1, hlen, hlenAdd, hany]

/-- Claim C4: column equality compares only the presence of a default value,
never its content: shared-name columns agreeing on name, notNull, pk and on
default presence are equal regardless of the default texts; consequently
changing default texts (on the inspected or the declared side) while keeping
their presence never changes `columnsAreEqual` nor the `schema_status`
outcome. -/
theorem default_value_content_ignored :
    (∀ c d : TableInfo, d.name = c.name → d.notnull = c.notnull → d.pk = c.pk →
      ((0 < d.dflt_value.length) ↔ (0 < c.dflt_value.length)) →
      columnsAreEqual d c = true) ∧
    (∀ (supportsDropColumn supportsGeneratedColumns : Bool) (t t2 : SchemaTable)
        (tableExistsInDb : Bool) (db db2 : List TableInfo) (preserve : Bool),
      List.Forall₂ colEquivDflt t.columns t2.columns →
      List.Forall₂ tiEquivDflt db db2 →
      schema_status supportsDropColumn supportsGeneratedColumns t tableExistsInDb
          db preserve =
        schema_status supportsDropColumn supportsGeneratedColumns t2 tableExistsInDb
          db2 preserve) := by
  constructor
  · intro c d hn hnn hpk hdf
    have hdec : decide (0 < d.dflt_value.length) = decide (0 < c.dflt_value.length) :=
      decide_eq_decide.mpr hdf
    unfold columnsAreEqual
    rw [hn, hnn, hpk, hdec]
    simp
  · intro sdc sgc t t2 tEx db db2 preserve ht hdb
    exact schema_status_congr sdc sgc tEx preserve ht hdb

/-- Declared table of the C4 witness. -/
def tableC4 : SchemaTable :=
  ⟨"users", [⟨"a", "INT", false, "5", 0, none⟩]⟩

/-- Witness for C4 at a concrete input: two inspected schemas that differ
only in the concrete text of one non-empty default produce the same
synchronization outcome. -/
theorem default_value_content_ignored_witness :
    ([⟨0, "a", "INT", false, "7", 0⟩] : List TableInfo) ≠
      [⟨0, "a", "INT", false, "8", 0⟩] ∧
    schema_status true true tableC4 true [⟨0, "a", "INT", false, "7", 0⟩] false =
      schema_status true true tableC4 true [⟨0, "a", "INT", false, "8", 0⟩] false :=
  ⟨by decide,
    default_value_content_ignored.2 true true tableC4 tableC4 true
      [⟨0, "a", "INT", false, "7", 0⟩] [⟨0, "a", "INT", false, "8", 0⟩] false
      (List.Forall₂.cons ⟨rfl, rfl, rfl, by decide, rfl, rfl⟩ List.Forall₂.nil)
      (List.Forall₂.cons ⟨rfl, rfl, rfl, rfl, by decide, rfl⟩ List.Forall₂.nil)⟩

theorem find?_isSome_eq_any {α : Type} (p : α → Bool) :
    ∀ l : List α, (l.find? p).isSome = l.any p := by
  intro l
  induction l with
  | nil => rfl
  | cons a l ih =>
    cases hpa : p a with
    | true =>
      rw [List.find?_cons_of_pos l hpa, List.any_cons, hpa]
      rfl
    | false =>
      rw [List.find?_cons_of_neg l (by rw [hpa]; exact Bool.false_ne_true),
        List.any_cons, hpa, Bool.false_or]
      exact ih

theorem foldl_copy_names (p : Column → Bool) :
    ∀ (cols : List Column) (acc : List String),
      cols.foldl (fun columnNames c => if p c then columnNames else columnNames ++ [c.name])
          acc =
        acc ++ (cols.filter (fun c => !p c)).map Column.name := by
  intro cols
  induction cols with
  | nil => intro acc; simp
  | cons c rest ih =>
    intro acc
    rw [List.foldl_cons]
    cases hpc : p c with
    | true =>
      rw [if_pos rfl]
      rw [ih acc]
      have : (!p c) = false := by rw [hpc]; rfl
      rw [List.filter_cons, this]
      simp
    | false =>
      simp only [Bool.false_eq_true, if_false]
      rw [ih (acc ++ [c.name])]
      have : (!p c) = true := by rw [hpc]; rfl
      rw [List.filter_cons, this]
      simp

/-- Claim C7: the statement generated by `copy_table` is
INSERT INTO name (L) SELECT L FROM original, where the same column-name list
L appears in the INSERT and SELECT positions and consists exactly of the
declared columns whose names are not in `columnsToIgnore`, in declared
order. -/
theorem copy_table_statement (t : SchemaTable) (nm : String)
    (columnsToIgnore : List TableInfo) :
    copyTableColumnNames t columnsToIgnore =
      (t.columns.filter (fun c =>
        !(columnsToIgnore.any (fun p => c.name == p.name)))).map Column.name ∧
    copy_table_sql t nm columnsToIgnore =
      "INSERT INTO " ++ nm ++ " (" ++
        insertColumnList (copyTableColumnNames t columnsToIgnore) ++ ") " ++
        "SELECT " ++ selectColumnList (copyTableColumnNames t columnsToIgnore) ++
        " FROM " ++ squote ++ t.name ++ squote := by
  constructor
  · unfold copyTableColumnNames
    rw [foldl_copy_names
      (fun c => (columnsToIgnore.find? (fun p => c.name == p.name)).isSome) t.columns []]
    rw [List.nil_append]
    congr 1
    apply List.filter_congr
    intro c _
    rw [find?_isSome_eq_any]
  · rfl

/-- The external database engine used by the C8 witness: every query fails
with a fixed engine code and message. -/
def dbFailC8 : SqliteDb :=
  ⟨fun _ => ExecOutcome.failure 10 "disk I/O error"⟩

/-- Claim C8: `table_exists` and `get_table_info` raise an error carrying the
engine's error code and message exactly when the underlying execution fails,
and on success they return a value — never a silent false or empty list in
place of reporting a failure. -/
theorem inspector_error_propagation (db : SqliteDb) (tableName : String)
    (code : Int) (msg : String) :
    (table_exists db tableName = Except.error ⟨code, msg⟩ ↔
      db.exec (table_exists_query tableName) = ExecOutcome.failure code msg) ∧
    (get_table_info db tableName = Except.error ⟨code, msg⟩ ↔
      db.exec (get_table_info_query tableName) = ExecOutcome.failure code msg) ∧
    (∀ rows, db.exec (table_exists_query tableName) = ExecOutcome.success rows →
      ∃ b, table_exists db tableName = Except.ok b) ∧
    (∀ rows, db.exec (get_table_info_query tableName) = ExecOutcome.success rows →
      ∃ l, get_table_info db tableName = Except.ok l) := by
  refine ⟨?_, ?_, ?_, ?_⟩
  · unfold table_exists
    cases hx : db.exec (table_exists_query tableName) with
    | success rows => simp
    | failure c2 m2 => simp [DbError.mk.injEq]
  · unfold get_table_info
    cases hx : db.exec (get_table_info_query tableName) with
    | success rows => simp
    | failure c2 m2 => simp [DbError.mk.injEq]
  · intro rows hx
    unfold table_exists
    rw [hx]
    exact ⟨_, rfl⟩
  · intro rows hx
    unfold get_table_info
    rw [hx]
    exact ⟨_, rfl⟩

/-- Witness for C8 at a concrete failing engine: both inspectors surface the
engine code and message. -/
theorem inspector_error_propagation_witness :
    table_exists dbFailC8 "users" = Except.error ⟨10, "disk I/O error"⟩ ∧
    get_table_info dbFailC8 "users" = Except.error ⟨10, "disk I/O error"⟩ :=
  ⟨(inspector_error_propagation dbFailC8 "users" 10 "disk I/O error").1.mpr rfl,
    (inspector_error_propagation dbFailC8 "users" 10 "disk I/O error").2.1.mpr rfl⟩

/-- Claim C9: `schema_status` never mutates the stored table definition: the
method leaves the storage object — in particular its declared column list —
exactly as it was, and its result is a function of the declared table value
alone; all consumption and erasure during the comparison happens on the
per-call copies handed to `calculate_remove_add_columns`. -/
theorem schema_status_frame (s : StorageImpl)
    (supportsDropColumn supportsGeneratedColumns tableExistsInDb : Bool)
    (dbTableInfoInput : List TableInfo) (preserve : Bool) :
    (s.schema_status_method supportsDropColumn supportsGeneratedColumns tableExistsInDb
      dbTableInfoInput preserve).2 = s ∧
    (s.schema_status_method supportsDropColumn supportsGeneratedColumns tableExistsInDb
      dbTableInfoInput preserve).2.table.columns = s.table.columns ∧
    (s.schema_status_method supportsDropColumn supportsGeneratedColumns tableExistsInDb
      dbTableInfoInput preserve).1 =
      schema_status supportsDropColumn supportsGeneratedColumns s.table tableExistsInDb
        dbTableInfoInput preserve :=
  ⟨rfl, rfl, rfl⟩

end SqliteOrm
